import Mathlib

/-!
# Verification of the wedding-translator client core (static/js/translator.js)

Shallow embedding of the `LiveTranslator` class (the Firebase variant; the
second, simpler variant of `selectColumn`/`translateText` is embedded where a
claim refers to it).  DOM inputs are modelled as a list of `Column` records
(language and current `value`); `document.activeElement` is the
`focusedLanguage` field; the `lastTranslatedText` JS object is an association
list; the single debounce timer is an `Option` holding the scheduled
`translateText` arguments; network effects (provider calls, Firebase writes,
console errors) are recorded in lists so that frame properties are provable.
-/

namespace WeddingTranslator

/-- One `.translation-input` textarea: its `data-language` and its `value`. -/
structure Column where
  language : String
  value : String
deriving Repr, DecidableEq

/-- A Firebase `SyncSnapshot` as written by `syncToFirebase`:
`{translations, activeLanguage, timestamp}` (the timestamp plays no role in
any claim and is omitted). -/
structure SyncSnapshot where
  translations : List (String × String)
  activeLanguage : Option String
deriving Repr, DecidableEq

/-- Result of the `fetch('/translate')` round trip as `translateText` sees it:
a transport failure (the `catch` path), a provider-reported failure
(`data.success` false, with the optional `data.error`), or a success carrying
`data.translations`. -/
inductive FetchResult where
  | networkError
  | apiError (msg : Option String)
  | success (translations : List (String × String))
deriving Repr, DecidableEq

/-- The mutable state of a `LiveTranslator` instance together with the DOM
state it manipulates and logs of its outward effects. -/
structure TranslatorState where
  /-- `this.activeLanguage` -/
  activeLanguage : Option String
  /-- `this.translationTimeout`: the pending debounced call, as the
  `(text, sourceLanguage)` arguments `translateText` will receive. -/
  translationTimeout : Option (String × String)
  /-- `this.lastTranslatedText` (a JS object keyed by language). -/
  lastTranslatedText : List (String × String)
  /-- `this.isTranslating` -/
  isTranslating : Bool
  /-- `this.isReceivingUpdate` -/
  isReceivingUpdate : Bool
  /-- the `.translation-input` elements, in DOM order -/
  inputs : List Column
  /-- the languages of the `.translation-column` container divs -/
  columnLanguages : List String
  /-- languages whose column div currently carries the `active` class -/
  activeClasses : List String
  /-- the language of the input that is `document.activeElement`, if any -/
  focusedLanguage : Option String
  /-- messages logged through `showError` -/
  errors : List String
  /-- snapshots written to Firebase by `syncToFirebase` -/
  published : List SyncSnapshot
  /-- `(text, source_language)` bodies POSTed to `/translate` -/
  providerCalls : List (String × String)
  /-- whether `this.database` was initialised (Firebase available) -/
  hasDatabase : Bool
deriving Repr, DecidableEq

/-- Embeds `document.querySelector('.translation-input[data-language=l]')`. -/
def findInput (st : TranslatorState) (lang : String) : Option Column :=
  st.inputs.find? (fun c => c.language = lang)

/-- The displayed text of language `lang`'s input, when that input exists. -/
def getValue (st : TranslatorState) (lang : String) : Option String :=
  (findInput st lang).map Column.value

/-- Embeds `input.value = v` on the input found for `lang` (first match, as
`querySelector` returns). -/
def setValue : List Column → String → String → List Column
  | [], _, _ => []
  | c :: cs, lang, v =>
      if c.language = lang then { c with value := v } :: cs
      else c :: setValue cs lang v

/-- JS object update `m[k] = v` on an association list. -/
def setAssoc : List (String × String) → String → String → List (String × String)
  | [], k, v => [(k, v)]
  | (k', v') :: rest, k, v =>
      if k' = k then (k, v) :: rest else (k', v') :: setAssoc rest k v

/-- Embeds the read `this.lastTranslatedText[lang] || ''`. -/
def getLTT (st : TranslatorState) (lang : String) : String :=
  (st.lastTranslatedText.lookup lang).getD ""

/-- Drop leading JS whitespace characters. -/
def trimLeftChars : List Char → List Char
  | [] => []
  | c :: cs => if c.isWhitespace then trimLeftChars cs else c :: cs

/-- JS `String.prototype.trim()`: strip whitespace from both ends. -/
def jsTrim (s : String) : String :=
  String.mk ((trimLeftChars ((trimLeftChars s.data).reverse)).reverse)

/-- JS `String.prototype.split` on a sentence-boundary character class:
cut at every `.`, `!` or `?`. -/
def splitBoundaryAux : List Char → List Char → List String
  | [], acc => [String.mk acc.reverse]
  | c :: cs, acc =>
      if c = '.' || c = '!' || c = '?' then
        String.mk acc.reverse :: splitBoundaryAux cs []
      else splitBoundaryAux cs (c :: acc)

/-- Embeds `text.split(/[.!?]+/).filter(s => s.trim().length > 0)` — the `[.!?]+`
regex and the emptiness filter together are equivalent to splitting at each
single boundary character and filtering, since runs of boundaries only
contribute whitespace-only segments. -/
def splitSentences (text : String) : List String :=
  (splitBoundaryAux text.data []).filter (fun s => (jsTrim s).length > 0)

/-- Embeds `LiveTranslator.shouldTranslateNewContent(lastText, currentText)`
(translator.js, Firebase variant). -/
def shouldTranslateNewContent (lastText currentText : String) : Bool :=
  -- Always translate if text was deleted (shorter than before)
  if currentText.length < lastText.length then true
  else
    let newCharCount : Int := (currentText.length : Int) - (lastText.length : Int)
    if newCharCount < 10 then false
    else
      let sentences := splitSentences currentText
      let lastSentences := splitSentences lastText
      if sentences.length > lastSentences.length then true
      else if sentences.length > 0 && lastSentences.length > 0 then
        let currentLastSentence := jsTrim (sentences.getLastD "")
        let previousLastSentence := jsTrim (lastSentences.getLastD "")
        decide ((currentLastSentence.length : Int) - (previousLastSentence.length : Int) > 30)
      else false

/-- Embeds `LiveTranslator.clearOtherColumns(sourceLanguage)`: every input whose
language differs from the source gets `value = ''` and
`lastTranslatedText[language] = ''`. -/
def clearOtherColumns (st : TranslatorState) (sourceLanguage : String) : TranslatorState :=
  { st with
    inputs := st.inputs.map (fun c =>
      if c.language = sourceLanguage then c else { c with value := "" }),
    lastTranslatedText :=
      (st.inputs.map Column.language).foldl
        (fun m lang => if lang = sourceLanguage then m else setAssoc m lang "")
        st.lastTranslatedText }

/-- Embeds `LiveTranslator.handleInput(text, sourceLanguage)` (Firebase variant):
cancel the pending debounce, clear other columns synchronously on empty
trimmed text, otherwise schedule `translateText(text.trim(), sourceLanguage)`
behind the 500 ms debounce iff the significance filter passes. -/
def handleInput (st : TranslatorState) (text sourceLanguage : String) : TranslatorState :=
  -- clearTimeout(this.translationTimeout); this.hideError()
  let st := { st with translationTimeout := none }
  if jsTrim text = "" then
    clearOtherColumns st sourceLanguage
  else
    let lastTranslated := getLTT st sourceLanguage
    if shouldTranslateNewContent lastTranslated (jsTrim text) then
      { st with translationTimeout := some (jsTrim text, sourceLanguage) }
    else st

/-- The debounce delay passed to `setTimeout` in `handleInput` (ms). -/
def debounceDelayMs : Nat := 500

/-- Embeds `LiveTranslator.selectColumn(language)` (Firebase variant): strip the
`active` class from every column, add it to the selected column if one
exists, set `this.activeLanguage = language` unconditionally, and focus the
selected input if one exists. -/
def selectColumn (st : TranslatorState) (language : String) : TranslatorState :=
  let st := { st with activeClasses := [] }
  let st :=
    if language ∈ st.columnLanguages then { st with activeClasses := [language] }
    else st
  let st := { st with activeLanguage := some language }
  match findInput st language with
  | some _ => { st with focusedLanguage := some language }
  | none => st

/-- Embeds the `LiveTranslator.updateTranslations` loop body: for a result entry
`(language, value)` with `language !== sourceLanguage` and an existing input,
set the input's value and `lastTranslatedText[language]` to `value`. -/
def applyTranslationEntry (sourceLanguage : String) (st : TranslatorState)
    (entry : String × String) : TranslatorState :=
  if entry.1 = sourceLanguage then st
  else
    match findInput st entry.1 with
    | some _ =>
        { st with
          inputs := setValue st.inputs entry.1 entry.2,
          lastTranslatedText := setAssoc st.lastTranslatedText entry.1 entry.2 }
    | none => st

/-- Embeds `LiveTranslator.updateTranslations(translations, sourceLanguage)`
(Firebase variant; highlighting and scrolling are presentation-only). -/
def updateTranslations (st : TranslatorState)
    (translations : List (String × String)) (sourceLanguage : String) : TranslatorState :=
  translations.foldl (applyTranslationEntry sourceLanguage) st

/-- Embeds `LiveTranslator.syncToFirebase(translations, activeLanguage)`: skipped
when the database is unavailable or a remote update is being applied,
otherwise writes a full-replace snapshot. -/
def syncToFirebase (st : TranslatorState)
    (translations : List (String × String)) (activeLanguage : Option String) :
    TranslatorState :=
  if !st.hasDatabase || st.isReceivingUpdate then st
  else { st with published := st.published ++ [⟨translations, activeLanguage⟩] }

/-- Embeds `LiveTranslator.translateText(text, sourceLanguage)` (Firebase variant).
The asynchronous `fetch` is modelled by passing the round trip's outcome as
`resp`; the returned `Bool` records whether the provider call was issued.
The `finally` block clears `isTranslating` on every exit path past the
in-flight guard. -/
def translateText (st : TranslatorState) (text sourceLanguage : String)
    (resp : FetchResult) : TranslatorState × Bool :=
  if st.isTranslating then (st, false)  -- Prevent concurrent translations
  else
    let st := { st with isTranslating := true,
                        providerCalls := st.providerCalls ++ [(text, sourceLanguage)] }
    match resp with
    | .success translations =>
        let st := { st with lastTranslatedText := setAssoc st.lastTranslatedText sourceLanguage text }
        let st := updateTranslations st translations sourceLanguage
        let st := syncToFirebase st translations (some sourceLanguage)
        ({ st with isTranslating := false }, true)
    | .apiError msg =>
        ({ st with errors := st.errors ++ [msg.getD "Translation failed"],
                   isTranslating := false }, true)
    | .networkError =>
        ({ st with errors := st.errors ++ ["Network error. Please check your connection."],
                   isTranslating := false }, true)

/-- Embeds the `LiveTranslator.updateFromFirebase` loop body for one snapshot entry
`(language, newValue)`: skip when that column is the active one and holds
focus; otherwise, when the input exists and the value differs, replace the
value and `lastTranslatedText[language]`. -/
def applyRemoteEntry (st : TranslatorState) (entry : String × String) : TranslatorState :=
  match findInput st entry.1 with
  | none => st
  | some input =>
      let isCurrentlyActive := st.activeLanguage = some entry.1
      let isUserTyping := st.focusedLanguage = some entry.1
      if isCurrentlyActive ∧ isUserTyping then st
      else if input.value ≠ entry.2 then
        { st with
          inputs := setValue st.inputs entry.1 entry.2,
          lastTranslatedText := setAssoc st.lastTranslatedText entry.1 entry.2 }
      else st

/-- Embeds `LiveTranslator.updateFromFirebase(data)`: apply every snapshot entry
through `applyRemoteEntry`, then adopt the remote `activeLanguage` through
`selectColumn` when it is truthy and differs. -/
def updateFromFirebase (st : TranslatorState) (data : SyncSnapshot) : TranslatorState :=
  let st1 := data.translations.foldl applyRemoteEntry st
  match data.activeLanguage with
  | some al =>
      if al ≠ "" ∧ st1.activeLanguage ≠ some al then selectColumn st1 al else st1
  | none => st1

/-- The grace delay (ms) after which the `onValue` handler's `setTimeout`
clears `isReceivingUpdate`. -/
def receivingUpdateGraceMs : Nat := 2000

/-- The Firebase `onValue` callback registered in `initFirebaseSync`.
`data = none` stands for a snapshot with no `translations` field (or null
data), which is only logged.  The returned `Option Nat` is the delay of the
`setTimeout` scheduled to clear `isReceivingUpdate`, when one is scheduled. -/
def onValueHandler (st : TranslatorState) (data : Option SyncSnapshot) :
    TranslatorState × Option Nat :=
  match data with
  | none => (st, none)
  | some d =>
      if !st.isReceivingUpdate then
        let st := { st with isReceivingUpdate := true }
        (updateFromFirebase st d, some receivingUpdateGraceMs)
      else (st, none)

/-- Events the Firebase subscription can deliver: a remote snapshot arriving
at `onValue`, or the expiry of the scheduled grace timer that clears
`isReceivingUpdate`. -/
inductive FbEvent where
  | remote (data : Option SyncSnapshot)
  | timerExpiry
deriving Repr, DecidableEq

/-- One step of the Firebase subscription's event loop. -/
def fbStep (st : TranslatorState) : FbEvent → TranslatorState
  | .remote data => (onValueHandler st data).1
  | .timerExpiry => { st with isReceivingUpdate := false }

/-- Run of the Firebase subscription over a sequence of events. -/
def fbRun (st : TranslatorState) (evs : List FbEvent) : TranslatorState :=
  evs.foldl fbStep st

/-- Embeds `LiveTranslator.selectColumn(language)` as in the second observed
variant of translator.js: same active-class and `activeLanguage` handling,
but editability is enforced with a `readonly` attribute — the selected input
loses it (and gains focus), every other input gains it. -/
structure ColumnRO where
  language : String
  value : String
  readonly : Bool
deriving Repr, DecidableEq

/-- State touched by the second variant's `selectColumn`. -/
structure TranslatorStateV2 where
  activeLanguage : Option String
  activeClasses : List String
  columnLanguages : List String
  inputs : List ColumnRO
  focusedLanguage : Option String
deriving Repr, DecidableEq

/-- Second variant `selectColumn`: note `this.activeLanguage = language` is
again unconditional, and for an unknown language every input becomes
readonly and none is focused. -/
def selectColumnV2 (st : TranslatorStateV2) (language : String) : TranslatorStateV2 :=
  let st := { st with activeClasses := [] }
  let st :=
    if language ∈ st.columnLanguages then { st with activeClasses := [language] }
    else st
  let st := { st with activeLanguage := some language }
  { st with
    inputs := st.inputs.map (fun c =>
      if c.language = language then { c with readonly := false } else { c with readonly := true }),
    focusedLanguage :=
      if st.inputs.any (fun c => c.language = language) then some language
      else st.focusedLanguage }

/-! ## Concrete states for witnesses and counterexamples -/

/-- The three-column French/English/Polish page right after `init()`:
English auto-selected, all columns empty, Firebase available. -/
def demoState : TranslatorState := {
  activeLanguage := some "english", translationTimeout := none,
  lastTranslatedText := [("french", ""), ("english", ""), ("polish", "")],
  isTranslating := false, isReceivingUpdate := false,
  inputs := [⟨"french", ""⟩, ⟨"english", ""⟩, ⟨"polish", ""⟩],
  columnLanguages := ["french", "english", "polish"],
  activeClasses := ["english"], focusedLanguage := none,
  errors := [], published := [], providerCalls := [], hasDatabase := true }

/-- Device A just before its provider call resolves: the user typed the
spec's example sentence into the English column. -/
def demoDeviceA : TranslatorState := { demoState with
  inputs := [⟨"french", ""⟩,
             ⟨"english", "Hello there, how are you doing today my friend?"⟩,
             ⟨"polish", ""⟩],
  focusedLanguage := some "english" }

/-- Device A after its successful translation (spec §8 example response). -/
def demoDeviceA' : TranslatorState :=
  (translateText demoDeviceA "Hello there, how are you doing today my friend?"
    "english" (.success [("french", "Bonjour"), ("polish", "Witaj")])).1

/-- Device B (idle, no focus) after receiving through `onValue` the snapshot
device A published. -/
def demoDeviceB' : TranslatorState :=
  (onValueHandler demoState
    (some ⟨[("french", "Bonjour"), ("polish", "Witaj")], some "english"⟩)).1

/-- A state in which "Hi" was last translated from English and the user has
just typed "Hi. Ok." into the English column. -/
def demoHi : TranslatorState := { demoState with
  lastTranslatedText := [("french", ""), ("english", "Hi"), ("polish", "")],
  inputs := [⟨"french", ""⟩, ⟨"english", "Hi. Ok."⟩, ⟨"polish", ""⟩],
  focusedLanguage := some "english" }

/-- A state mid-way through applying a remote update: the suppression flag
`isReceivingUpdate` is set. -/
def demoSuppressed : TranslatorState := { demoState with isReceivingUpdate := true }

/-- Modelled from the spec: the backend `/translate` endpoint (`app.py` and
`gemini_translator.py` are not among the observed sources).  Per spec §4.2
and §6, a successful response carries "a map of translations for all other
configured languages" — every configured language except the source, and
nothing else. -/
def providerResponseKeys (allLanguages : List String) (sourceLanguage : String)
    (ts : List (String × String)) : Prop :=
  ts.map Prod.fst = allLanguages.filter (fun l => l ≠ sourceLanguage)

/-! ## Helper lemmas -/

theorem lookup_cons_eq (k v : String) (rest : List (String × String)) :
    ((k, v) :: rest).lookup k = some v := by
  simp [List.lookup]

theorem lookup_cons_ne (k a v : String) (rest : List (String × String))
    (h : k ≠ a) : ((a, v) :: rest).lookup k = rest.lookup k := by
  have hb : (k == a) = false := beq_eq_false_iff_ne.mpr h
  simp [List.lookup, hb]

theorem lookup_setAssoc_self (m : List (String × String)) (k v : String) :
    (setAssoc m k v).lookup k = some v := by
  induction m with
  | nil => simp [setAssoc, lookup_cons_eq]
  | cons p rest ih =>
      obtain ⟨k', v'⟩ := p
      by_cases h : k' = k
      · subst h; simp [setAssoc, lookup_cons_eq]
      · simp only [setAssoc, if_neg h]
        rw [lookup_cons_ne _ _ _ _ (fun hh => h hh.symm)]
        exact ih

theorem lookup_setAssoc_ne (m : List (String × String)) (k v k' : String)
    (h : k' ≠ k) : (setAssoc m k v).lookup k' = m.lookup k' := by
  induction m with
  | nil =>
      show ((k, v) :: []).lookup k' = _
      rw [lookup_cons_ne _ _ _ _ h]
  | cons p rest ih =>
      obtain ⟨a, b⟩ := p
      by_cases ha : a = k
      · subst ha
        simp only [setAssoc, eq_self_iff_true, if_true]
        rw [lookup_cons_ne _ _ _ _ h, lookup_cons_ne _ _ _ _ h]
      · simp only [setAssoc, if_neg ha]
        by_cases hb : k' = a
        · subst hb; rw [lookup_cons_eq, lookup_cons_eq]
        · rw [lookup_cons_ne _ _ _ _ hb, lookup_cons_ne _ _ _ _ hb]
          exact ih

theorem find_setValue_self (cs : List Column) (lang v : String) :
    (setValue cs lang v).find? (fun c => c.language = lang)
      = (cs.find? (fun c => c.language = lang)).map (fun c => { c with value := v }) := by
  induction cs with
  | nil => simp [setValue]
  | cons c rest ih =>
      by_cases h : c.language = lang
      · simp [setValue, if_pos h, List.find?_cons_of_pos, h]
      · rw [setValue, if_neg h]
        rw [List.find?_cons_of_neg _ (by simp [h]),
            List.find?_cons_of_neg _ (by simp [h])]
        exact ih

theorem find_setValue_ne (cs : List Column) (lang v lang' : String)
    (h : lang' ≠ lang) :
    (setValue cs lang v).find? (fun c => c.language = lang')
      = cs.find? (fun c => c.language = lang') := by
  induction cs with
  | nil => simp [setValue]
  | cons c rest ih =>
      by_cases hc : c.language = lang
      · rw [setValue, if_pos hc]
        rw [List.find?_cons_of_neg _ (by simp [hc, Ne.symm h]),
            List.find?_cons_of_neg _ (by simp [hc, Ne.symm h])]
      · rw [setValue, if_neg hc]
        by_cases hc' : c.language = lang'
        · rw [List.find?_cons_of_pos _ (by simp [hc']),
              List.find?_cons_of_pos _ (by simp [hc'])]
        · rw [List.find?_cons_of_neg _ (by simp [hc']),
              List.find?_cons_of_neg _ (by simp [hc'])]
          exact ih

theorem applyRemoteEntry_frame (st : TranslatorState) (e : String × String) :
    (applyRemoteEntry st e).activeLanguage = st.activeLanguage ∧
    (applyRemoteEntry st e).focusedLanguage = st.focusedLanguage ∧
    (applyRemoteEntry st e).errors = st.errors ∧
    (applyRemoteEntry st e).providerCalls = st.providerCalls ∧
    (applyRemoteEntry st e).published = st.published ∧
    (applyRemoteEntry st e).isReceivingUpdate = st.isReceivingUpdate ∧
    (applyRemoteEntry st e).isTranslating = st.isTranslating ∧
    (applyRemoteEntry st e).translationTimeout = st.translationTimeout ∧
    (applyRemoteEntry st e).columnLanguages = st.columnLanguages := by
  unfold applyRemoteEntry
  rcases findInput st e.1 with _ | c <;> simp
  split
  · simp
  · split <;> simp

theorem findInput_applyRemoteEntry_ne (st : TranslatorState) (e : String × String)
    (lang : String) (h : lang ≠ e.1) :
    findInput (applyRemoteEntry st e) lang = findInput st lang := by
  unfold applyRemoteEntry
  rcases hf : findInput st e.1 with _ | c
  · rfl
  · dsimp only
    split
    · rfl
    · split
      · show (setValue st.inputs e.1 e.2).find? _ = _
        exact find_setValue_ne _ _ _ _ h
      · rfl

theorem lookupLTT_applyRemoteEntry_ne (st : TranslatorState) (e : String × String)
    (lang : String) (h : lang ≠ e.1) :
    (applyRemoteEntry st e).lastTranslatedText.lookup lang
      = st.lastTranslatedText.lookup lang := by
  unfold applyRemoteEntry
  rcases hf : findInput st e.1 with _ | c
  · rfl
  · dsimp only
    split
    · rfl
    · split
      · exact lookup_setAssoc_ne _ _ _ _ h
      · rfl

theorem applyRemoteEntry_skip (st : TranslatorState) (e : String × String)
    (ha : st.activeLanguage = some e.1) (hf : st.focusedLanguage = some e.1) :
    applyRemoteEntry st e = st := by
  unfold applyRemoteEntry
  rcases findInput st e.1 with _ | c
  · rfl
  · simp [ha, hf]

theorem applyRemoteEntry_sets (st : TranslatorState) (e : String × String)
    (hns : ¬(st.activeLanguage = some e.1 ∧ st.focusedLanguage = some e.1))
    (hin : (findInput st e.1).isSome) :
    getValue (applyRemoteEntry st e) e.1 = some e.2 := by
  unfold applyRemoteEntry
  rcases hf : findInput st e.1 with _ | c
  · simp [hf] at hin
  · dsimp only
    rw [if_neg hns]
    split
    · show ((setValue st.inputs e.1 e.2).find? _).map _ = _
      rw [find_setValue_self]
      show ((findInput st e.1).map _).map _ = _
      rw [hf]
      rfl
    · rename_i hv
      rw [not_ne_iff] at hv
      show (findInput st e.1).map _ = _
      rw [hf]
      simp [hv]

/-- The found column for a language has that language. -/
theorem findInput_language (st : TranslatorState) (lang : String) (c : Column)
    (h : findInput st lang = some c) : c.language = lang := by
  have := List.find?_some h
  simpa using this

theorem applyRemoteEntry_sets_ltt (st : TranslatorState) (e : String × String)
    (hns : ¬(st.activeLanguage = some e.1 ∧ st.focusedLanguage = some e.1))
    (hin : (findInput st e.1).isSome)
    (hdiff : getValue st e.1 ≠ some e.2) :
    (applyRemoteEntry st e).lastTranslatedText.lookup e.1 = some e.2 := by
  unfold applyRemoteEntry
  rcases hf : findInput st e.1 with _ | c
  · simp [hf] at hin
  · dsimp only
    rw [if_neg hns]
    have hvne : c.value ≠ e.2 := by
      intro hv
      apply hdiff
      show (findInput st e.1).map _ = _
      rw [hf]
      simp [hv]
    rw [if_pos hvne]
    exact lookup_setAssoc_self _ _ _

/-- A fold of `applyRemoteEntry` never touches a column whose language is
not among the processed keys, nor the orchestrator's bookkeeping fields. -/
theorem fold_remote_frame (ts : List (String × String)) (st : TranslatorState) :
    (ts.foldl applyRemoteEntry st).activeLanguage = st.activeLanguage ∧
    (ts.foldl applyRemoteEntry st).focusedLanguage = st.focusedLanguage ∧
    (ts.foldl applyRemoteEntry st).errors = st.errors ∧
    (ts.foldl applyRemoteEntry st).providerCalls = st.providerCalls ∧
    (ts.foldl applyRemoteEntry st).published = st.published ∧
    (ts.foldl applyRemoteEntry st).isReceivingUpdate = st.isReceivingUpdate ∧
    (ts.foldl applyRemoteEntry st).isTranslating = st.isTranslating := by
  induction ts generalizing st with
  | nil => exact ⟨rfl, rfl, rfl, rfl, rfl, rfl, rfl⟩
  | cons e rest ih =>
      obtain ⟨h1, h2, h3, h4, h5, h6, h7, -, -⟩ := applyRemoteEntry_frame st e
      obtain ⟨g1, g2, g3, g4, g5, g6, g7⟩ := ih (applyRemoteEntry st e)
      exact ⟨g1.trans h1, g2.trans h2, g3.trans h3, g4.trans h4,
             g5.trans h5, g6.trans h6, g7.trans h7⟩

theorem fold_remote_value_frame (ts : List (String × String)) (st : TranslatorState)
    (lang : String) (h : lang ∉ ts.map Prod.fst) :
    getValue (ts.foldl applyRemoteEntry st) lang = getValue st lang ∧
    (ts.foldl applyRemoteEntry st).lastTranslatedText.lookup lang
      = st.lastTranslatedText.lookup lang := by
  induction ts generalizing st with
  | nil => exact ⟨rfl, rfl⟩
  | cons e rest ih =>
      simp only [List.map_cons, List.mem_cons, not_or] at h
      obtain ⟨he, hrest⟩ := h
      obtain ⟨g1, g2⟩ := ih (applyRemoteEntry st e) (by simpa using hrest)
      refine ⟨g1.trans ?_, g2.trans (lookupLTT_applyRemoteEntry_ne st e lang he)⟩
      show ((findInput _ _).map _) = ((findInput _ _).map _)
      rw [findInput_applyRemoteEntry_ne st e lang he]

/-- Skip-if-focused, lifted through the whole snapshot loop: the column that
is both active and focused is never written. -/
theorem fold_remote_skip (ts : List (String × String)) (st : TranslatorState)
    (L : String) (ha : st.activeLanguage = some L) (hf : st.focusedLanguage = some L) :
    getValue (ts.foldl applyRemoteEntry st) L = getValue st L ∧
    (ts.foldl applyRemoteEntry st).lastTranslatedText.lookup L
      = st.lastTranslatedText.lookup L ∧
    (ts.foldl applyRemoteEntry st).activeLanguage = some L ∧
    (ts.foldl applyRemoteEntry st).focusedLanguage = some L := by
  induction ts generalizing st with
  | nil => exact ⟨rfl, rfl, ha, hf⟩
  | cons e rest ih =>
      by_cases hk : e.1 = L
      · rw [List.foldl_cons,
            applyRemoteEntry_skip st e (hk ▸ ha) (hk ▸ hf)]
        exact ih st ha hf
      · obtain ⟨h1, h2, -, -, -, -, -, -, -⟩ := applyRemoteEntry_frame st e
        obtain ⟨g1, g2, g3, g4⟩ :=
          ih (applyRemoteEntry st e) (h1.trans ha) (h2.trans hf)
        refine ⟨g1.trans ?_, g2.trans
          (lookupLTT_applyRemoteEntry_ne st e L (fun hh => hk hh.symm)), g3, g4⟩
        show ((findInput _ _).map _) = ((findInput _ _).map _)
        rw [findInput_applyRemoteEntry_ne st e L (fun hh => hk hh.symm)]

/-- A snapshot entry for a column that is not both active and focused is
applied by the loop: afterwards the column shows the snapshot's text. -/
theorem fold_remote_sets (ts : List (String × String)) (st : TranslatorState)
    (B v : String) (hmem : (B, v) ∈ ts) (hnd : (ts.map Prod.fst).Nodup)
    (hns : ¬(st.activeLanguage = some B ∧ st.focusedLanguage = some B))
    (hin : (findInput st B).isSome) :
    getValue (ts.foldl applyRemoteEntry st) B = some v := by
  induction ts generalizing st with
  | nil => simp at hmem
  | cons e rest ih =>
      rw [List.map_cons, List.nodup_cons] at hnd
      rcases List.mem_cons.mp hmem with he | hrest
      · have hB1 : e.1 = B := by rw [← he]
        have hnotin : B ∉ rest.map Prod.fst := hB1 ▸ hnd.1
        have happ : applyRemoteEntry st e = applyRemoteEntry st (B, v) := by rw [← he]
        rw [List.foldl_cons, happ]
        exact ((fold_remote_value_frame rest (applyRemoteEntry st (B, v)) B hnotin).1).trans
          (applyRemoteEntry_sets st (B, v) hns hin)
      · have hkB : e.1 ≠ B := fun hh =>
          hnd.1 (hh ▸ List.mem_map.mpr ⟨(B, v), hrest, rfl⟩)
        rw [List.foldl_cons]
        obtain ⟨h1, h2, -, -, -, -, -, -, -⟩ := applyRemoteEntry_frame st e
        refine ih (applyRemoteEntry st e) hrest hnd.2 ?_ ?_
        · rw [h1, h2]; exact hns
        · rw [findInput_applyRemoteEntry_ne st e B (fun hh => hkB hh.symm)]
          exact hin

/-- Lemma: `selectColumn` only moves the `active` class, the active-language marker
and focus; it never touches input values, `lastTranslatedText`, or logs. -/
theorem selectColumn_frame (st : TranslatorState) (l : String) :
    (selectColumn st l).inputs = st.inputs ∧
    (selectColumn st l).lastTranslatedText = st.lastTranslatedText ∧
    (selectColumn st l).errors = st.errors ∧
    (selectColumn st l).providerCalls = st.providerCalls ∧
    (selectColumn st l).published = st.published ∧
    (selectColumn st l).isReceivingUpdate = st.isReceivingUpdate ∧
    (selectColumn st l).isTranslating = st.isTranslating ∧
    (selectColumn st l).translationTimeout = st.translationTimeout := by
  unfold selectColumn
  dsimp only
  split <;> split <;> simp

theorem getValue_selectColumn (st : TranslatorState) (l lang : String) :
    getValue (selectColumn st l) lang = getValue st lang := by
  show ((selectColumn st l).inputs.find? _).map _ = _
  rw [(selectColumn_frame st l).1]
  rfl

theorem applyTranslationEntry_frame (src : String) (st : TranslatorState)
    (e : String × String) :
    (applyTranslationEntry src st e).activeLanguage = st.activeLanguage ∧
    (applyTranslationEntry src st e).focusedLanguage = st.focusedLanguage ∧
    (applyTranslationEntry src st e).errors = st.errors ∧
    (applyTranslationEntry src st e).providerCalls = st.providerCalls ∧
    (applyTranslationEntry src st e).published = st.published ∧
    (applyTranslationEntry src st e).isReceivingUpdate = st.isReceivingUpdate ∧
    (applyTranslationEntry src st e).isTranslating = st.isTranslating ∧
    (applyTranslationEntry src st e).hasDatabase = st.hasDatabase := by
  unfold applyTranslationEntry
  split
  · simp
  · split <;> simp

theorem findInput_applyTranslationEntry_ne (src : String) (st : TranslatorState)
    (e : String × String) (lang : String) (h : lang ≠ e.1) :
    findInput (applyTranslationEntry src st e) lang = findInput st lang := by
  unfold applyTranslationEntry
  split
  · rfl
  · split
    · show (setValue st.inputs e.1 e.2).find? _ = _
      exact find_setValue_ne _ _ _ _ h
    · rfl

theorem lookupLTT_applyTranslationEntry_ne (src : String) (st : TranslatorState)
    (e : String × String) (lang : String) (h : lang ≠ e.1) :
    (applyTranslationEntry src st e).lastTranslatedText.lookup lang
      = st.lastTranslatedText.lookup lang := by
  unfold applyTranslationEntry
  split
  · rfl
  · split
    · exact lookup_setAssoc_ne _ _ _ _ h
    · rfl

theorem applyTranslationEntry_src (src : String) (st : TranslatorState)
    (e : String × String) (h : e.1 = src) :
    applyTranslationEntry src st e = st := by
  unfold applyTranslationEntry
  rw [if_pos h]

theorem applyTranslationEntry_sets (src : String) (st : TranslatorState)
    (e : String × String) (h : e.1 ≠ src) (hin : (findInput st e.1).isSome) :
    getValue (applyTranslationEntry src st e) e.1 = some e.2 ∧
    (applyTranslationEntry src st e).lastTranslatedText.lookup e.1 = some e.2 := by
  unfold applyTranslationEntry
  rw [if_neg h]
  rcases hf : findInput st e.1 with _ | c
  · simp [hf] at hin
  · refine ⟨?_, lookup_setAssoc_self _ _ _⟩
    show ((setValue st.inputs e.1 e.2).find? _).map _ = _
    rw [find_setValue_self]
    show ((findInput st e.1).map _).map _ = _
    rw [hf]
    rfl

/-- The translation-result loop never changes the orchestrator's flags or
effect logs, only input values and `lastTranslatedText`. -/
theorem fold_trans_frame (src : String) (ts : List (String × String))
    (st : TranslatorState) :
    (ts.foldl (applyTranslationEntry src) st).activeLanguage = st.activeLanguage ∧
    (ts.foldl (applyTranslationEntry src) st).errors = st.errors ∧
    (ts.foldl (applyTranslationEntry src) st).providerCalls = st.providerCalls ∧
    (ts.foldl (applyTranslationEntry src) st).published = st.published ∧
    (ts.foldl (applyTranslationEntry src) st).isReceivingUpdate = st.isReceivingUpdate ∧
    (ts.foldl (applyTranslationEntry src) st).isTranslating = st.isTranslating ∧
    (ts.foldl (applyTranslationEntry src) st).hasDatabase = st.hasDatabase := by
  induction ts generalizing st with
  | nil => exact ⟨rfl, rfl, rfl, rfl, rfl, rfl, rfl⟩
  | cons e rest ih =>
      obtain ⟨h1, -, h3, h4, h5, h6, h7, h8⟩ := applyTranslationEntry_frame src st e
      obtain ⟨g1, g3, g4, g5, g6, g7, g8⟩ := ih (applyTranslationEntry src st e)
      exact ⟨g1.trans h1, g3.trans h3, g4.trans h4, g5.trans h5,
             g6.trans h6, g7.trans h7, g8.trans h8⟩

/-- The translation-result loop leaves the source column (value and
`lastTranslatedText` entry) alone: entries for the source are skipped and
entries for other languages touch other columns. -/
theorem fold_trans_src_frame (src : String) (ts : List (String × String))
    (st : TranslatorState) :
    getValue (ts.foldl (applyTranslationEntry src) st) src = getValue st src ∧
    (ts.foldl (applyTranslationEntry src) st).lastTranslatedText.lookup src
      = st.lastTranslatedText.lookup src := by
  induction ts generalizing st with
  | nil => exact ⟨rfl, rfl⟩
  | cons e rest ih =>
      by_cases hk : e.1 = src
      · rw [List.foldl_cons, applyTranslationEntry_src src st e hk]
        exact ih st
      · obtain ⟨g1, g2⟩ := ih (applyTranslationEntry src st e)
        rw [List.foldl_cons]
        refine ⟨g1.trans ?_, g2.trans
          (lookupLTT_applyTranslationEntry_ne src st e src (fun hh => hk hh.symm))⟩
        show ((findInput _ _).map _) = ((findInput _ _).map _)
        rw [findInput_applyTranslationEntry_ne src st e src (fun hh => hk hh.symm)]

/-- A result entry for a non-source language with an existing input is
applied by the loop: afterwards that column's value and
`lastTranslatedText` entry are exactly the provided translation. -/
theorem fold_trans_value_frame (src : String) (ts : List (String × String))
    (st : TranslatorState) (lang : String) (h : lang ∉ ts.map Prod.fst) :
    getValue (ts.foldl (applyTranslationEntry src) st) lang = getValue st lang ∧
    (ts.foldl (applyTranslationEntry src) st).lastTranslatedText.lookup lang
      = st.lastTranslatedText.lookup lang := by
  induction ts generalizing st with
  | nil => exact ⟨rfl, rfl⟩
  | cons e rest ih =>
      simp only [List.map_cons, List.mem_cons, not_or] at h
      obtain ⟨he, hrest⟩ := h
      obtain ⟨g1, g2⟩ := ih (applyTranslationEntry src st e) (by simpa using hrest)
      rw [List.foldl_cons]
      refine ⟨g1.trans ?_, g2.trans
        (lookupLTT_applyTranslationEntry_ne src st e lang he)⟩
      show ((findInput _ _).map _) = ((findInput _ _).map _)
      rw [findInput_applyTranslationEntry_ne src st e lang he]

/-- A result entry for a non-source language with an existing input is
applied by the loop: afterwards that column's value and
`lastTranslatedText` entry are exactly the provided translation. -/
theorem fold_trans_sets (src : String) (ts : List (String × String))
    (st : TranslatorState) (B v : String) (hmem : (B, v) ∈ ts)
    (hnd : (ts.map Prod.fst).Nodup) (hB : B ≠ src)
    (hin : (findInput st B).isSome) :
    getValue (ts.foldl (applyTranslationEntry src) st) B = some v ∧
    (ts.foldl (applyTranslationEntry src) st).lastTranslatedText.lookup B = some v := by
  induction ts generalizing st with
  | nil => simp at hmem
  | cons e rest ih =>
      rw [List.map_cons, List.nodup_cons] at hnd
      rcases List.mem_cons.mp hmem with he | hrest
      · have hB1 : e.1 = B := by rw [← he]
        have hnotin : B ∉ rest.map Prod.fst := hB1 ▸ hnd.1
        have happ : applyTranslationEntry src st e = applyTranslationEntry src st (B, v) := by
          rw [← he]
        rw [List.foldl_cons, happ]
        obtain ⟨s1, s2⟩ := applyTranslationEntry_sets src st (B, v) hB hin
        obtain ⟨f1, f2⟩ :=
          fold_trans_value_frame src rest (applyTranslationEntry src st (B, v)) B hnotin
        exact ⟨f1.trans s1, f2.trans s2⟩
      · have hkB : e.1 ≠ B := fun hh =>
          hnd.1 (hh ▸ List.mem_map.mpr ⟨(B, v), hrest, rfl⟩)
        rw [List.foldl_cons]
        refine ih (applyTranslationEntry src st e) hrest hnd.2 ?_
        rw [findInput_applyTranslationEntry_ne src st e B (fun hh => hkB hh.symm)]
        exact hin

theorem clearOtherColumns_frame (st : TranslatorState) (src : String) :
    (clearOtherColumns st src).translationTimeout = st.translationTimeout ∧
    (clearOtherColumns st src).activeLanguage = st.activeLanguage ∧
    (clearOtherColumns st src).focusedLanguage = st.focusedLanguage ∧
    (clearOtherColumns st src).errors = st.errors ∧
    (clearOtherColumns st src).providerCalls = st.providerCalls ∧
    (clearOtherColumns st src).published = st.published := by
  exact ⟨rfl, rfl, rfl, rfl, rfl, rfl⟩

theorem find_clear_map_ne (cs : List Column) (src lang : String)
    (h1 : lang ≠ src) (h2 : lang ∈ cs.map Column.language) :
    (cs.map (fun c => if c.language = src then c else { c with value := "" })).find?
        (fun c => c.language = lang)
      = some ⟨lang, ""⟩ := by
  induction cs with
  | nil => simp at h2
  | cons c rest ih =>
      by_cases hc : c.language = lang
      · have hcs : ¬ c.language = src := fun hh => h1 (hc.symm.trans hh)
        simp only [List.map_cons, if_neg hcs]
        rw [List.find?_cons_of_pos _ (by simp [hc])]
        simp [hc]
      · simp only [List.map_cons]
        have hlang : ((if c.language = src then c else { c with value := "" }) : Column).language
            = c.language := by
          split <;> rfl
        rw [List.find?_cons_of_neg _ (by simp [hlang, hc])]
        refine ih ?_
        rcases List.mem_map.mp h2 with ⟨c', hc', hl⟩
        rcases List.mem_cons.mp hc' with h | h
        · exact absurd (h ▸ hl) hc
        · exact List.mem_map.mpr ⟨c', h, hl⟩

theorem find_clear_map_src (cs : List Column) (src : String) :
    (cs.map (fun c => if c.language = src then c else { c with value := "" })).find?
        (fun c => c.language = src)
      = cs.find? (fun c => c.language = src) := by
  induction cs with
  | nil => rfl
  | cons c rest ih =>
      by_cases hc : c.language = src
      · simp only [List.map_cons, if_pos hc]
        rw [List.find?_cons_of_pos _ (by simp [hc]),
            List.find?_cons_of_pos _ (by simp [hc])]
      · simp only [List.map_cons, if_neg hc]
        rw [List.find?_cons_of_neg _ (by simp [hc]),
            List.find?_cons_of_neg _ (by simp [hc])]
        exact ih

theorem lookup_clear_fold (langs : List String) (m0 : List (String × String))
    (src lang : String) (h1 : lang ≠ src)
    (hd : lang ∈ langs ∨ m0.lookup lang = some "") :
    ((langs.foldl (fun m l => if l = src then m else setAssoc m l "") m0).lookup lang)
      = some "" := by
  induction langs generalizing m0 with
  | nil =>
      rcases hd with h | h
      · simp at h
      · exact h
  | cons l rest ih =>
      rw [List.foldl_cons]
      by_cases hl : l = src
      · rw [if_pos hl]
        refine ih m0 ?_
        rcases hd with h | h
        · rcases List.mem_cons.mp h with h' | h'
          · exact absurd (h' ▸ hl) h1
          · exact Or.inl h'
        · exact Or.inr h
      · rw [if_neg hl]
        refine ih (setAssoc m0 l "") ?_
        rcases hd with h | h
        · rcases List.mem_cons.mp h with h' | h'
          · subst h'
            exact Or.inr (lookup_setAssoc_self m0 lang "")
          · exact Or.inl h'
        · by_cases he : lang = l
          · subst he
            exact Or.inr (lookup_setAssoc_self m0 lang "")
          · exact Or.inr ((lookup_setAssoc_ne m0 l "" lang he).trans h)

theorem lookup_clear_fold_src (langs : List String) (m0 : List (String × String))
    (src : String) :
    ((langs.foldl (fun m l => if l = src then m else setAssoc m l "") m0).lookup src)
      = m0.lookup src := by
  induction langs generalizing m0 with
  | nil => rfl
  | cons l rest ih =>
      rw [List.foldl_cons]
      by_cases hl : l = src
      · rw [if_pos hl]; exact ih m0
      · rw [if_neg hl]
        exact (ih (setAssoc m0 l "")).trans
          (lookup_setAssoc_ne m0 l "" src (fun hh => hl hh.symm))

/-- Retyping exactly the already-translated text never passes the
significance filter. -/
theorem shouldTranslate_self (T : String) : shouldTranslateNewContent T T = false := by
  unfold shouldTranslateNewContent
  simp

theorem updateFromFirebase_frame (st : TranslatorState) (d : SyncSnapshot) :
    (updateFromFirebase st d).providerCalls = st.providerCalls ∧
    (updateFromFirebase st d).isReceivingUpdate = st.isReceivingUpdate ∧
    (updateFromFirebase st d).errors = st.errors ∧
    (updateFromFirebase st d).published = st.published ∧
    (updateFromFirebase st d).isTranslating = st.isTranslating := by
  obtain ⟨ts, al⟩ := d
  unfold updateFromFirebase
  obtain ⟨-, -, f3, f4, f5, f6, f7⟩ := fold_remote_frame ts st
  cases al with
  | none => exact ⟨f4, f6, f3, f5, f7⟩
  | some al =>
      dsimp only
      split
      · obtain ⟨-, -, s3, s4, s5, s6, s7, -⟩ :=
          selectColumn_frame (ts.foldl applyRemoteEntry st) al
        exact ⟨s4.trans f4, s6.trans f6, s3.trans f3, s5.trans f5, s7.trans f7⟩
      · exact ⟨f4, f6, f3, f5, f7⟩

/-! ## Claims -/

/-- C5: if `translateText` is invoked while `isTranslating` is set, the call
returns immediately — the state is completely unchanged, no provider call is
issued (`false`), and the attempt is dropped rather than queued (no queue
exists in the state, and the result *is* the input state). -/
theorem c5_single_inflight_guard (st : TranslatorState) (text src : String)
    (resp : FetchResult) (h : st.isTranslating = true) :
    translateText st text src resp = (st, false) := by
  unfold translateText
  rw [if_pos h]

/-- Witness for C5 at a concrete state with a translation in flight. -/
theorem c5_single_inflight_guard_witness :
    translateText { demoState with isTranslating := true } "Hello" "english"
        FetchResult.networkError
      = ({ demoState with isTranslating := true }, false) :=
  c5_single_inflight_guard { demoState with isTranslating := true }
    "Hello" "english" FetchResult.networkError rfl

/-- C4: for every `translateText` invocation that issues its provider call
(the in-flight guard was clear) and fails — transport error or
provider-reported failure — an error message is surfaced, the inputs and
`lastTranslatedText` of every column are exactly unchanged, and
`isTranslating` is cleared on every exit path (success, failure, or
exception), so a later keystroke can retry. -/
theorem c4_failure_paths (st : TranslatorState) (text src : String)
    (h : st.isTranslating = false) :
    (∀ resp, ((translateText st text src resp).1).isTranslating = false) ∧
    (∀ resp, (resp = FetchResult.networkError ∨ ∃ m, resp = FetchResult.apiError m) →
       (translateText st text src resp).1.inputs = st.inputs ∧
       (translateText st text src resp).1.lastTranslatedText = st.lastTranslatedText ∧
       ∃ m, (translateText st text src resp).1.errors = st.errors ++ [m]) := by
  have hni : ¬ (st.isTranslating = true) := by simp [h]
  constructor
  · intro resp
    cases resp <;> (unfold translateText; rw [if_neg hni])
  · intro resp hfail
    rcases hfail with h1 | ⟨m, h1⟩ <;> subst h1 <;> (unfold translateText; rw [if_neg hni])
    · exact ⟨rfl, rfl, "Network error. Please check your connection.", rfl⟩
    · exact ⟨rfl, rfl, m.getD "Translation failed", rfl⟩

/-- Witness for C4 at a concrete state and a failing response. -/
theorem c4_failure_paths_witness :
    ((translateText demoState "Hello" "english" FetchResult.networkError).1).isTranslating = false ∧
    (translateText demoState "Hello" "english" FetchResult.networkError).1.inputs
      = demoState.inputs :=
  ⟨(c4_failure_paths demoState "Hello" "english" rfl).1 FetchResult.networkError,
   ((c4_failure_paths demoState "Hello" "english" rfl).2 FetchResult.networkError
     (Or.inl rfl)).1⟩

/-- C6: `handleInput` with empty trimmed text synchronously (no debounce,
nothing scheduled: the pending timer is cancelled and left empty) sets every
non-source column's value and `lastTranslatedText` entry to the empty
string. -/
theorem c6_empty_clears_synchronously (st : TranslatorState) (text src : String)
    (h : jsTrim text = "") :
    (handleInput st text src).translationTimeout = none ∧
    ∀ lang, lang ≠ src → lang ∈ st.inputs.map Column.language →
      getValue (handleInput st text src) lang = some "" ∧
      getLTT (handleInput st text src) lang = "" := by
  have hh : handleInput st text src
      = clearOtherColumns { st with translationTimeout := none } src := by
    unfold handleInput
    dsimp only
    rw [if_pos h]
  rw [hh]
  refine ⟨rfl, ?_⟩
  intro lang hne hmem
  constructor
  · show ((st.inputs.map _).find? _).map _ = _
    rw [find_clear_map_ne st.inputs src lang hne hmem]
    rfl
  · show (((st.inputs.map Column.language).foldl _ st.lastTranslatedText).lookup lang).getD "" = ""
    rw [lookup_clear_fold (st.inputs.map Column.language) st.lastTranslatedText src lang hne
      (Or.inl hmem)]
    rfl

/-- Witness for C6: clearing the English column of `demoHi`. -/
theorem c6_empty_clears_synchronously_witness :
    (handleInput demoHi "  " "english").translationTimeout = none ∧
    getValue (handleInput demoHi "  " "english") "french" = some "" ∧
    getLTT (handleInput demoHi "  " "english") "french" = "" :=
  ⟨(c6_empty_clears_synchronously demoHi "  " "english" (by decide)).1,
   ((c6_empty_clears_synchronously demoHi "  " "english" (by decide)).2 "french"
      (by decide) (by decide)).1,
   ((c6_empty_clears_synchronously demoHi "  " "english" (by decide)).2 "french"
      (by decide) (by decide)).2⟩

/-- C10: `handleInput` with empty trimmed text clears only the other
columns: the source column's value and its own `lastTranslatedText` entry
are untouched; consequently retyping exactly the previously translated text
passes neither the redundancy nor the significance filter, so nothing is
scheduled and the other columns stay empty. -/
theorem c10_empty_then_retype (st : TranslatorState) (t0 T src : String)
    (h0 : jsTrim t0 = "") (hT : getLTT st src = T) (htr : jsTrim T = T)
    (hne : T ≠ "") :
    getLTT (handleInput st t0 src) src = getLTT st src ∧
    getValue (handleInput st t0 src) src = getValue st src ∧
    (handleInput (handleInput st t0 src) T src).translationTimeout = none ∧
    ∀ lang, lang ≠ src → lang ∈ st.inputs.map Column.language →
      getValue (handleInput (handleInput st t0 src) T src) lang = some "" := by
  have hh : handleInput st t0 src
      = clearOtherColumns { st with translationTimeout := none } src := by
    unfold handleInput
    dsimp only
    rw [if_pos h0]
  have hltt1 : getLTT (handleInput st t0 src) src = getLTT st src := by
    rw [hh]
    show (((st.inputs.map Column.language).foldl _ st.lastTranslatedText).lookup src).getD ""
      = (st.lastTranslatedText.lookup src).getD ""
    rw [lookup_clear_fold_src]
  have hval1 : getValue (handleInput st t0 src) src = getValue st src := by
    rw [hh]
    show ((st.inputs.map _).find? _).map _ = (st.inputs.find? _).map _
    rw [find_clear_map_src]
  have hjne : ¬ (jsTrim T = "") := fun hx => hne (htr.symm.trans hx)
  have hgen : ∀ s1 : TranslatorState, getLTT s1 src = T →
      handleInput s1 T src = { s1 with translationTimeout := none } := by
    intro s1 hg1
    unfold handleInput
    dsimp only
    rw [if_neg hjne]
    have hc : shouldTranslateNewContent
        (getLTT { s1 with translationTimeout := none } src) (jsTrim T) = false := by
      have hg : getLTT { s1 with translationTimeout := none } src = T := by
        show (s1.lastTranslatedText.lookup src).getD "" = T
        exact hg1
      rw [hg, htr, shouldTranslate_self]
    rw [if_neg (by simp [hc])]
  have hst2 : handleInput (handleInput st t0 src) T src
      = { handleInput st t0 src with translationTimeout := none } :=
    hgen (handleInput st t0 src) (hltt1.trans hT)
  refine ⟨hltt1, hval1, by rw [hst2], ?_⟩
  intro lang hne' hmem
  rw [hst2]
  show getValue (handleInput st t0 src) lang = some ""
  rw [hh]
  show ((st.inputs.map _).find? _).map _ = _
  rw [find_clear_map_ne st.inputs src lang hne' hmem]
  rfl

/-- Witness for C10: clear the English column of `demoHi`, then retype
exactly the previously translated "Hi". -/
theorem c10_empty_then_retype_witness :
    getLTT (handleInput demoHi "" "english") "english" = getLTT demoHi "english" ∧
    (handleInput (handleInput demoHi "" "english") "Hi" "english").translationTimeout = none ∧
    getValue (handleInput (handleInput demoHi "" "english") "Hi" "english") "french"
      = some "" :=
  ⟨(c10_empty_then_retype demoHi "" "Hi" "english" (by decide) (by decide)
      (by decide) (by decide)).1,
   (c10_empty_then_retype demoHi "" "Hi" "english" (by decide) (by decide)
      (by decide) (by decide)).2.2.1,
   (c10_empty_then_retype demoHi "" "Hi" "english" (by decide) (by decide)
      (by decide) (by decide)).2.2.2 "french" (by decide) (by decide)⟩

/-- C9: while `isReceivingUpdate` is set, the `onValue` handler ignores
every incoming remote snapshot entirely — the state is unchanged, so
nothing is queued for later re-application — and the flag is only cleared
by the grace timer (scheduled at a fixed 2000 ms whenever a snapshot is
applied); a burst of remote snapshots arriving inside the window leaves no
trace at all, even after the window closes. -/
theorem c9_suppression_window (st : TranslatorState) (h : st.isReceivingUpdate = true) :
    receivingUpdateGraceMs = 2000 ∧
    (∀ d, onValueHandler st d = (st, none)) ∧
    (∀ evs : List FbEvent, (∀ e ∈ evs, e ≠ FbEvent.timerExpiry) → fbRun st evs = st) ∧
    (∀ evs : List FbEvent, (∀ e ∈ evs, e ≠ FbEvent.timerExpiry) →
       fbRun st (evs ++ [FbEvent.timerExpiry]) = { st with isReceivingUpdate := false }) ∧
    (∀ st0 : TranslatorState, ∀ d, st0.isReceivingUpdate = false →
       (onValueHandler st0 (some d)).2 = some receivingUpdateGraceMs ∧
       ((onValueHandler st0 (some d)).1).isReceivingUpdate = true) := by
  have hdrop : ∀ d, onValueHandler st d = (st, none) := by
    intro d
    cases d with
    | none => rfl
    | some d =>
        unfold onValueHandler
        dsimp only
        rw [if_neg (by simp [h])]
  have hrun : ∀ evs : List FbEvent, (∀ e ∈ evs, e ≠ FbEvent.timerExpiry) →
      fbRun st evs = st := by
    intro evs
    induction evs with
    | nil => exact fun _ => rfl
    | cons e rest ih =>
        intro hevs
        have he := hevs e (List.mem_cons_self e rest)
        have hrest := fun e' he' => hevs e' (List.mem_cons_of_mem e he')
        cases e with
        | timerExpiry => exact absurd rfl he
        | remote d =>
            show fbRun (fbStep st (FbEvent.remote d)) rest = st
            have hstep : fbStep st (FbEvent.remote d) = st := by
              show (onValueHandler st d).1 = st
              rw [hdrop d]
            rw [hstep]
            exact ih hrest
  refine ⟨rfl, hdrop, hrun, ?_, ?_⟩
  · intro evs hevs
    show (evs ++ [FbEvent.timerExpiry]).foldl fbStep st = _
    rw [List.foldl_append]
    have : evs.foldl fbStep st = st := hrun evs hevs
    rw [this]
    rfl
  · intro st0 d h0
    unfold onValueHandler
    dsimp only
    rw [if_pos (by simp [h0])]
    refine ⟨rfl, ?_⟩
    have := (updateFromFirebase_frame { st0 with isReceivingUpdate := true } d).2.1
    rw [this]

/-- Witness for C9: a suppressed state drops the example snapshot. -/
theorem c9_suppression_window_witness :
    onValueHandler demoSuppressed
        (some ⟨[("french", "Bonjour"), ("polish", "Witaj")], some "english"⟩)
      = (demoSuppressed, none) :=
  (c9_suppression_window demoSuppressed rfl).2.1
    (some ⟨[("french", "Bonjour"), ("polish", "Witaj")], some "english"⟩)

/-- C2 (counterexample): with "Hi" last translated from English, typing
"Hi. Ok." completes a new sentence boundary (sentence count 1 → 2) and is
non-empty after trimming, yet `handleInput` schedules nothing — the filter
first demands at least 10 appended characters. -/
theorem c2_counterexample :
    getLTT demoHi "english" = "Hi" ∧
    jsTrim "Hi. Ok." ≠ "" ∧
    (splitSentences (jsTrim "Hi. Ok.")).length
      > (splitSentences (getLTT demoHi "english")).length ∧
    (handleInput demoHi "Hi. Ok." "english").translationTimeout = none :=
  ⟨by decide, by decide, by decide, by decide⟩

/-- C2 (amended): a deletion (trimmed length strictly decreased) always
schedules the debounced translation; a completed sentence boundary schedules
it only when, in addition, at least 10 characters were appended since the
last translated text. -/
theorem c2_significance_filter (st : TranslatorState) (text src : String)
    (ht : jsTrim text ≠ "") :
    ((jsTrim text).length < (getLTT st src).length →
       (handleInput st text src).translationTimeout = some (jsTrim text, src)) ∧
    ((splitSentences (jsTrim text)).length > (splitSentences (getLTT st src)).length →
     (getLTT st src).length + 10 ≤ (jsTrim text).length →
       (handleInput st text src).translationTimeout = some (jsTrim text, src)) := by
  have hsched : ∀ hc : shouldTranslateNewContent (getLTT st src) (jsTrim text) = true,
      (handleInput st text src).translationTimeout = some (jsTrim text, src) := by
    intro hc
    unfold handleInput
    dsimp only
    rw [if_neg ht]
    have hg : getLTT { st with translationTimeout := none } src = getLTT st src := rfl
    rw [hg, if_pos hc]
  constructor
  · intro hlt
    apply hsched
    unfold shouldTranslateNewContent
    rw [if_pos hlt]
  · intro hsent hlen
    apply hsched
    unfold shouldTranslateNewContent
    by_cases hlt : (jsTrim text).length < (getLTT st src).length
    · rw [if_pos hlt]
    · rw [if_neg hlt]
      dsimp only
      rw [if_neg (by omega)]
      rw [if_pos hsent]

/-- Witness for C2 (amended): deleting down to "Bye" from "Hello there."
schedules a translation; so does appending a full new long sentence. -/
theorem c2_significance_filter_witness :
    (handleInput { demoHi with
        lastTranslatedText := [("english", "Hello there.")] } "Bye" "english").translationTimeout
      = some ("Bye", "english") ∧
    (handleInput demoHi "Hi. How is it going today?" "english").translationTimeout
      = some ("Hi. How is it going today?", "english") :=
  ⟨(c2_significance_filter { demoHi with
      lastTranslatedText := [("english", "Hello there.")] } "Bye" "english"
      (by decide)).1 (by decide),
   (c2_significance_filter demoHi "Hi. How is it going today?" "english"
      (by decide)).2 (by decide) (by decide)⟩

/-- C3 (counterexample): "german" names no column of the demo page, yet
`selectColumn` is not a no-op — the active-language marker changes from
"english" to "german" (and the previously active column loses its `active`
class). -/
theorem c3_counterexample :
    "german" ∉ demoState.columnLanguages ∧
    demoState.activeLanguage = some "english" ∧
    (selectColumn demoState "german").activeLanguage = some "german" ∧
    (selectColumn demoState "german").activeClasses = [] ∧
    selectColumn demoState "german" ≠ demoState :=
  ⟨by decide, by decide, by decide, by decide, by decide⟩

/-- C3 (amended): `selectColumn` always overwrites the active-language
marker with its argument (in both observed variants).  When the language
names an existing column, that column becomes the single one carrying the
`active` class and its input gains focus; when it does not, no column
carries the class, and focus and all remaining state (inputs, logs,
`lastTranslatedText`) are unchanged. -/
theorem c3_selectColumn_behavior (st : TranslatorState) (language : String) :
    (selectColumn st language).activeLanguage = some language ∧
    (language ∈ st.columnLanguages →
       (selectColumn st language).activeClasses = [language]) ∧
    (language ∉ st.columnLanguages →
       (selectColumn st language).activeClasses = []) ∧
    ((findInput st language).isSome →
       (selectColumn st language).focusedLanguage = some language) ∧
    ((findInput st language).isNone →
       (selectColumn st language).focusedLanguage = st.focusedLanguage) ∧
    (selectColumn st language).inputs = st.inputs ∧
    (selectColumn st language).lastTranslatedText = st.lastTranslatedText ∧
    (∀ st2 : TranslatorStateV2,
       (selectColumnV2 st2 language).activeLanguage = some language) := by
  have hchar : selectColumn st language =
      { st with
        activeClasses := if language ∈ st.columnLanguages then [language] else [],
        activeLanguage := some language,
        focusedLanguage := if (findInput st language).isSome then some language
                           else st.focusedLanguage } := by
    unfold selectColumn findInput
    dsimp only
    by_cases hm : language ∈ st.columnLanguages
    · simp only [if_pos hm]
      rcases hf : st.inputs.find? (fun c => c.language = language) with _ | c <;>
        simp [hf]
    · simp only [if_neg hm]
      rcases hf : st.inputs.find? (fun c => c.language = language) with _ | c <;>
        simp [hf]
  refine ⟨by rw [hchar], ?_, ?_, ?_, ?_, by rw [hchar], by rw [hchar],
    fun st2 => rfl⟩
  · intro hm
    rw [hchar]
    simp [hm]
  · intro hm
    rw [hchar]
    simp [hm]
  · intro hs
    rw [hchar]
    simp [hs]
  · intro hn
    rw [hchar]
    rcases hf : findInput st language with _ | c
    · simp [hf]
    · rw [hf] at hn
      simp at hn

/-- Witness for C3 (amended) at the demo state and an unknown language. -/
theorem c3_selectColumn_behavior_witness :
    (selectColumn demoState "german").activeLanguage = some "german" ∧
    (selectColumn demoState "german").focusedLanguage = demoState.focusedLanguage :=
  ⟨(c3_selectColumn_behavior demoState "german").1,
   (c3_selectColumn_behavior demoState "german").2.2.2.2.1 (by decide)⟩

/-- Lemma: `updateFromFirebase` only changes input values through the entry loop;
the trailing `selectColumn` never touches them. -/
theorem getValue_updateFromFirebase (st : TranslatorState) (d : SyncSnapshot)
    (lang : String) :
    getValue (updateFromFirebase st d) lang
      = getValue (d.translations.foldl applyRemoteEntry st) lang := by
  obtain ⟨ts, al⟩ := d
  unfold updateFromFirebase
  dsimp only
  cases al with
  | none => rfl
  | some a =>
      dsimp only
      by_cases hcond : a ≠ "" ∧ (ts.foldl applyRemoteEntry st).activeLanguage ≠ some a
      · rw [if_pos hcond]
        exact getValue_selectColumn _ _ _
      · rw [if_neg hcond]

/-- C8: a remote snapshot is never applied to the column that is both the
active column and holds input focus — its text survives unchanged and no
error is surfaced — while every other column named in the snapshot whose
incoming text differs is overwritten with the snapshot's value. -/
theorem c8_skip_if_focused (st : TranslatorState) (data : SyncSnapshot) (L : String)
    (ha : st.activeLanguage = some L) (hf : st.focusedLanguage = some L) :
    getValue (updateFromFirebase st data) L = getValue st L ∧
    (updateFromFirebase st data).errors = st.errors ∧
    ∀ B v, B ≠ L → (B, v) ∈ data.translations →
      (data.translations.map Prod.fst).Nodup →
      (findInput st B).isSome → getValue st B ≠ some v →
      getValue (updateFromFirebase st data) B = some v := by
  refine ⟨?_, (updateFromFirebase_frame st data).2.2.1, ?_⟩
  · rw [getValue_updateFromFirebase]
    exact (fold_remote_skip data.translations st L ha hf).1
  · intro B v hBL hmem hnd hin hdiff
    rw [getValue_updateFromFirebase]
    refine fold_remote_sets data.translations st B v hmem hnd ?_ hin
    rintro ⟨h1, -⟩
    exact hBL (Option.some.inj (ha.symm.trans h1)).symm

/-- Witness for C8: a focused active English column survives a snapshot that
names it, while the French column adopts the differing remote text. -/
theorem c8_skip_if_focused_witness :
    getValue (updateFromFirebase { demoState with focusedLanguage := some "english" }
        ⟨[("english", "REMOTE"), ("french", "Bonjour")], some "english"⟩) "english"
      = getValue { demoState with focusedLanguage := some "english" } "english" ∧
    getValue (updateFromFirebase { demoState with focusedLanguage := some "english" }
        ⟨[("english", "REMOTE"), ("french", "Bonjour")], some "english"⟩) "french"
      = some "Bonjour" :=
  ⟨(c8_skip_if_focused { demoState with focusedLanguage := some "english" }
      ⟨[("english", "REMOTE"), ("french", "Bonjour")], some "english"⟩ "english"
      rfl rfl).1,
   (c8_skip_if_focused { demoState with focusedLanguage := some "english" }
      ⟨[("english", "REMOTE"), ("french", "Bonjour")], some "english"⟩ "english"
      rfl rfl).2.2 "french" "Bonjour" (by decide) (by decide) (by decide)
      (by decide) (by decide)⟩

/-- C7: after a successful translation from source `C` whose result contains
`(A, x)` and `(B, y)`, columns A and B show exactly `x` and `y` (value and
`lastTranslatedText`), `lastTranslatedText[C]` is the text that was sent,
and column C's displayed text is unchanged (entries for `C` itself in the
result map are skipped). -/
theorem c7_success_updates (st : TranslatorState) (text C : String)
    (ts : List (String × String)) (A B x y : String)
    (hT : st.isTranslating = false) (hnd : (ts.map Prod.fst).Nodup)
    (hA : (A, x) ∈ ts) (hB : (B, y) ∈ ts) (hAC : A ≠ C) (hBC : B ≠ C)
    (hiA : (findInput st A).isSome) (hiB : (findInput st B).isSome) :
    getValue (translateText st text C (FetchResult.success ts)).1 A = some x ∧
    getLTT (translateText st text C (FetchResult.success ts)).1 A = x ∧
    getValue (translateText st text C (FetchResult.success ts)).1 B = some y ∧
    getLTT (translateText st text C (FetchResult.success ts)).1 B = y ∧
    getLTT (translateText st text C (FetchResult.success ts)).1 C = text ∧
    getValue (translateText st text C (FetchResult.success ts)).1 C = getValue st C := by
  have hni : ¬ (st.isTranslating = true) := by simp [hT]
  have heq : (translateText st text C (FetchResult.success ts)).1
      = { syncToFirebase
            (ts.foldl (applyTranslationEntry C)
              { st with isTranslating := true,
                        providerCalls := st.providerCalls ++ [(text, C)],
                        lastTranslatedText := setAssoc st.lastTranslatedText C text })
            ts (some C)
          with isTranslating := false } := by
    unfold translateText
    dsimp only
    rw [if_neg hni]
    rfl
  set st1 : TranslatorState :=
    { st with isTranslating := true,
              providerCalls := st.providerCalls ++ [(text, C)],
              lastTranslatedText := setAssoc st.lastTranslatedText C text }
  have hsv : ∀ lang,
      getValue { syncToFirebase (ts.foldl (applyTranslationEntry C) st1) ts (some C)
                 with isTranslating := false } lang
        = getValue (ts.foldl (applyTranslationEntry C) st1) lang := by
    intro lang
    show ((syncToFirebase (ts.foldl (applyTranslationEntry C) st1) ts (some C)).inputs.find? _).map _
      = _
    unfold syncToFirebase
    split <;> rfl
  have hsl : ∀ lang,
      ({ syncToFirebase (ts.foldl (applyTranslationEntry C) st1) ts (some C)
         with isTranslating := false }).lastTranslatedText.lookup lang
        = (ts.foldl (applyTranslationEntry C) st1).lastTranslatedText.lookup lang := by
    intro lang
    show (syncToFirebase (ts.foldl (applyTranslationEntry C) st1) ts (some C)).lastTranslatedText.lookup lang
      = _
    unfold syncToFirebase
    split <;> rfl
  obtain ⟨sA1, sA2⟩ := fold_trans_sets C ts st1 A x hA hnd hAC
    (show (findInput st1 A).isSome from hiA)
  obtain ⟨sB1, sB2⟩ := fold_trans_sets C ts st1 B y hB hnd hBC
    (show (findInput st1 B).isSome from hiB)
  obtain ⟨fc1, fc2⟩ := fold_trans_src_frame C ts st1
  refine ⟨?_, ?_, ?_, ?_, ?_, ?_⟩
  · rw [heq, hsv A]; exact sA1
  · show (((translateText st text C (FetchResult.success ts)).1).lastTranslatedText.lookup A).getD "" = x
    rw [heq, hsl A, sA2]
    rfl
  · rw [heq, hsv B]; exact sB1
  · show (((translateText st text C (FetchResult.success ts)).1).lastTranslatedText.lookup B).getD "" = y
    rw [heq, hsl B, sB2]
    rfl
  · show (((translateText st text C (FetchResult.success ts)).1).lastTranslatedText.lookup C).getD "" = text
    rw [heq, hsl C, fc2]
    show ((setAssoc st.lastTranslatedText C text).lookup C).getD "" = text
    rw [lookup_setAssoc_self]
    rfl
  · rw [heq, hsv C]
    exact fc1

/-- Witness for C7: the spec §8 example — translating the English sentence
fills French and Polish exactly and records the sent English text. -/
theorem c7_success_updates_witness :
    getValue demoDeviceA' "french" = some "Bonjour" ∧
    getLTT demoDeviceA' "english" = "Hello there, how are you doing today my friend?" ∧
    getValue demoDeviceA' "english" = getValue demoDeviceA "english" :=
  ⟨(c7_success_updates demoDeviceA "Hello there, how are you doing today my friend?"
      "english" [("french", "Bonjour"), ("polish", "Witaj")] "french" "polish"
      "Bonjour" "Witaj" rfl (by decide) (by decide) (by decide) (by decide)
      (by decide) (by decide) (by decide)).1,
   (c7_success_updates demoDeviceA "Hello there, how are you doing today my friend?"
      "english" [("french", "Bonjour"), ("polish", "Witaj")] "french" "polish"
      "Bonjour" "Witaj" rfl (by decide) (by decide) (by decide) (by decide)
      (by decide) (by decide) (by decide)).2.2.2.2.1,
   (c7_success_updates demoDeviceA "Hello there, how are you doing today my friend?"
      "english" [("french", "Bonjour"), ("polish", "Witaj")] "french" "polish"
      "Bonjour" "Witaj" rfl (by decide) (by decide) (by decide) (by decide)
      (by decide) (by decide) (by decide)).2.2.2.2.2⟩

/-- C1 (counterexample): device A translates the spec §8 example sentence
from English and publishes; the published snapshot follows the spec's
provider contract (non-source languages only), so idle device B updates
French and Polish but its English column keeps its old empty text — the
three columns do not become identical to A's, although B issues no provider
call of its own. -/
theorem c1_counterexample :
    providerResponseKeys ["french", "english", "polish"] "english"
      [("french", "Bonjour"), ("polish", "Witaj")] ∧
    demoDeviceA'.published
      = [⟨[("french", "Bonjour"), ("polish", "Witaj")], some "english"⟩] ∧
    getValue demoDeviceA' "english"
      = some "Hello there, how are you doing today my friend?" ∧
    getValue demoDeviceB' "english" = some "" ∧
    getValue demoDeviceB' "french" = some "Bonjour" ∧
    getValue demoDeviceB' "polish" = some "Witaj" ∧
    demoDeviceB'.providerCalls = [] ∧
    getValue demoDeviceB' "english" ≠ getValue demoDeviceA' "english" :=
  ⟨rfl, by decide, rfl, by decide, by decide, by decide, by decide, by decide⟩

/-- C1 (amended): when device A completes a successful translation from
source `S` (in-flight guard clear, Firebase available, not suppressed), it
publishes the snapshot `{translations, activeLanguage: S}`; an idle device B
(no focus, not suppressed) receiving that snapshot adopts every translated
value for columns it has, issues no provider call, and — because the
provider result carries only non-source languages — leaves its copy of the
source column unchanged. -/
theorem c1_snapshot_propagation (stA stB : TranslatorState) (text S : String)
    (ts : List (String × String)) (langs : List String)
    (hA1 : stA.isTranslating = false) (hA2 : stA.hasDatabase = true)
    (hA3 : stA.isReceivingUpdate = false)
    (hresp : providerResponseKeys langs S ts) (hlnd : langs.Nodup)
    (hBfoc : stB.focusedLanguage = none) (hBflag : stB.isReceivingUpdate = false) :
    (translateText stA text S (FetchResult.success ts)).1.published
      = stA.published ++ [⟨ts, some S⟩] ∧
    (∀ lang v, (lang, v) ∈ ts → (findInput stB lang).isSome →
       getValue (onValueHandler stB (some ⟨ts, some S⟩)).1 lang = some v) ∧
    getValue (onValueHandler stB (some ⟨ts, some S⟩)).1 S = getValue stB S ∧
    (onValueHandler stB (some ⟨ts, some S⟩)).1.providerCalls = stB.providerCalls := by
  have hS : S ∉ ts.map Prod.fst := by
    rw [hresp]
    intro hmem
    rcases List.mem_filter.mp hmem with ⟨-, hne⟩
    simp at hne
  have hnd : (ts.map Prod.fst).Nodup := by
    rw [hresp]
    exact hlnd.filter _
  -- device A
  have hni : ¬ (stA.isTranslating = true) := by simp [hA1]
  have heqA : (translateText stA text S (FetchResult.success ts)).1
      = { syncToFirebase
            (ts.foldl (applyTranslationEntry S)
              { stA with isTranslating := true,
                         providerCalls := stA.providerCalls ++ [(text, S)],
                         lastTranslatedText := setAssoc stA.lastTranslatedText S text })
            ts (some S)
          with isTranslating := false } := by
    unfold translateText
    dsimp only
    rw [if_neg hni]
    rfl
  set stA1 : TranslatorState :=
    { stA with isTranslating := true,
               providerCalls := stA.providerCalls ++ [(text, S)],
               lastTranslatedText := setAssoc stA.lastTranslatedText S text }
  have hpub : (translateText stA text S (FetchResult.success ts)).1.published
      = stA.published ++ [⟨ts, some S⟩] := by
    rw [heqA]
    show (syncToFirebase (ts.foldl (applyTranslationEntry S) stA1) ts (some S)).published = _
    obtain ⟨-, -, -, f4, f5, -, f7⟩ := fold_trans_frame S ts stA1
    unfold syncToFirebase
    rw [if_neg ?hcond]
    case hcond =>
      have h1 : (ts.foldl (applyTranslationEntry S) stA1).hasDatabase = true :=
        f7.trans hA2
      have h2 : (ts.foldl (applyTranslationEntry S) stA1).isReceivingUpdate = false :=
        f5.trans hA3
      simp [h1, h2]
    dsimp only
    rw [f4]
  -- device B
  have heqB : (onValueHandler stB (some ⟨ts, some S⟩)).1
      = updateFromFirebase { stB with isReceivingUpdate := true } ⟨ts, some S⟩ := by
    unfold onValueHandler
    dsimp only
    rw [if_pos (by simp [hBflag])]
  set stB1 : TranslatorState := { stB with isReceivingUpdate := true }
  refine ⟨hpub, ?_, ?_, ?_⟩
  · intro lang v hmem hin
    rw [heqB, getValue_updateFromFirebase]
    refine fold_remote_sets ts stB1 lang v hmem hnd ?_
      (show (findInput stB1 lang).isSome from hin)
    rintro ⟨-, h2⟩
    have : stB1.focusedLanguage = stB.focusedLanguage := rfl
    rw [this, hBfoc] at h2
    exact Option.noConfusion h2
  · rw [heqB, getValue_updateFromFirebase]
    exact (fold_remote_value_frame ts stB1 S hS).1
  · rw [heqB]
    exact (updateFromFirebase_frame stB1 ⟨ts, some S⟩).1

/-- Witness for C1 (amended): the spec §8 scenario, devices A and B being
the demo page. -/
theorem c1_snapshot_propagation_witness :
    demoDeviceA'.published = demoState.published ++
      [⟨[("french", "Bonjour"), ("polish", "Witaj")], some "english"⟩] ∧
    getValue demoDeviceB' "french" = some "Bonjour" ∧
    getValue demoDeviceB' "english" = getValue demoState "english" ∧
    demoDeviceB'.providerCalls = demoState.providerCalls :=
  ⟨(c1_snapshot_propagation demoDeviceA demoState
      "Hello there, how are you doing today my friend?" "english"
      [("french", "Bonjour"), ("polish", "Witaj")]
      ["french", "english", "polish"] rfl rfl rfl rfl (by decide)
      rfl rfl).1,
   (c1_snapshot_propagation demoDeviceA demoState
      "Hello there, how are you doing today my friend?" "english"
      [("french", "Bonjour"), ("polish", "Witaj")]
      ["french", "english", "polish"] rfl rfl rfl rfl (by decide)
      rfl rfl).2.1 "french" "Bonjour" (by decide) (by decide),
   (c1_snapshot_propagation demoDeviceA demoState
      "Hello there, how are you doing today my friend?" "english"
      [("french", "Bonjour"), ("polish", "Witaj")]
      ["french", "english", "polish"] rfl rfl rfl rfl (by decide)
      rfl rfl).2.2.1,
   (c1_snapshot_propagation demoDeviceA demoState
      "Hello there, how are you doing today my friend?" "english"
      [("french", "Bonjour"), ("polish", "Witaj")]
      ["french", "english", "polish"] rfl rfl rfl rfl (by decide)
      rfl rfl).2.2.2⟩

end WeddingTranslator
